import Mathlib

/-!
Shallow embedding of the image_tager pipeline (crates add_image,
search_image, image-tager, models) and proofs of the spec's claims.

Machine floats carried by embedding vectors are modelled as rationals:
every claim below is about list structure, chunk arithmetic and which
computation runs, never about rounding.
-/

namespace ImageTager

/-- Rust's usize.div_ceil: ceiling division on naturals. -/
def rustDivCeil (a b : Nat) : Nat := (a + b - 1) / b

/-- Rust's slice::chunks: splits a list into contiguous chunks of size c,
the last one possibly shorter. For c = 0 the Rust call panics; we return []
and every theorem using this assumes 1 ≤ c as at the source call sites. -/
def listChunks {α : Type} (c : Nat) (xs : List α) : List (List α) :=
  if c = 0 then []
  else match xs with
    | [] => []
    | x :: rest => (x :: rest).take c :: listChunks c ((x :: rest).drop c)
termination_by xs.length
decreasing_by
  simp only [List.length_drop, List.length_cons]
  omega

/-- componentwise sum of two vectors (ndarray elementwise addition). -/
def addVec (u v : List ℚ) : List ℚ := List.zipWith (· + ·) u v

/-- componentwise sum of a stack of vectors of dimension d. -/
def sumVecs (d : Nat) (vs : List (List ℚ)) : List ℚ :=
  vs.foldl addVec (List.replicate d 0)

/-- ndarray mean_axis(Axis(0)) on a stack of vectors of dimension d:
componentwise sum divided by the number of rows. -/
def meanAxis0 (d : Nat) (vs : List (List ℚ)) : List ℚ :=
  (sumVecs d vs).map (· / (vs.length : ℚ))

/-- search_image::reduce_vectors. If at most 32 vectors, return them
unchanged. Otherwise chunk with chunk_size = 1 + len.div_ceil(32) and
replace each chunk by its componentwise mean. The ArrayView1::from_shape
calls fail when a vector's length differs from output_size; that failure is
the none case. -/
def reduce_vectors (output_size : Nat) (vecs : List (List ℚ)) :
    Option (List (List ℚ)) :=
  if vecs.length ≤ 32 then some vecs
  else if vecs.all (fun v => v.length = output_size) then
    some ((listChunks (1 + rustDivCeil vecs.length 32) vecs).map
      (meanAxis0 output_size))
  else none

theorem listChunks_join {α : Type} (c : Nat) (hc : c ≠ 0) (xs : List α) :
    (listChunks c xs).flatten = xs := by
  induction xs using listChunks.induct c with
  | case1 xs h => exact absurd h hc
  | case2 h => rw [listChunks]; simp [hc]
  | case3 h x rest ih =>
    rw [listChunks]
    simp only [hc, if_false, List.flatten_cons, ih]
    exact List.take_append_drop c (x :: rest)

theorem rustDivCeil_chunk_step (n c : Nat) (hc : c ≠ 0) (hn : n ≠ 0) :
    rustDivCeil (n - c) c + 1 = rustDivCeil n c := by
  unfold rustDivCeil
  rcases le_or_lt n c with hle | hlt
  · rw [Nat.sub_eq_zero_of_le hle]
    have h1 : (0 + c - 1) / c = 0 := Nat.div_eq_of_lt (by omega)
    have h2 : (n + c - 1) / c = 1 := by
      have hmod := Nat.div_add_mod (n + c - 1) c
      have hlo : 1 ≤ (n + c - 1) / c := by
        rw [Nat.le_div_iff_mul_le (by omega)]
        omega
      have hhi : (n + c - 1) / c < 2 := by
        rw [Nat.div_lt_iff_lt_mul (by omega)]
        omega
      omega
    omega
  · have hstep : n + c - 1 = (n - c + c - 1) + c := by omega
    rw [hstep, Nat.add_div_right _ (by omega)]

theorem listChunks_length {α : Type} (c : Nat) (hc : c ≠ 0) (xs : List α) :
    (listChunks c xs).length = rustDivCeil xs.length c := by
  induction xs using listChunks.induct c with
  | case1 xs h => exact absurd h hc
  | case2 h =>
    rw [listChunks]
    simp only [hc, if_false, List.length_nil]
    unfold rustDivCeil
    exact (Nat.div_eq_of_lt (by omega)).symm
  | case3 h x rest ih =>
    rw [listChunks]
    simp only [hc, if_false, List.length_cons, ih, List.length_drop]
    exact rustDivCeil_chunk_step (x :: rest).length c hc (by simp)

theorem listChunks_mem_short {α : Type} (c : Nat) (xs : List α) (ch : List α)
    (hm : ch ∈ listChunks c xs) : ch.length ≤ c := by
  induction xs using listChunks.induct c with
  | case1 xs h =>
    rw [listChunks.eq_def] at hm
    simp [h] at hm
  | case2 h =>
    rw [listChunks] at hm
    simp [h] at hm
  | case3 h x rest ih =>
    rw [listChunks] at hm
    simp only [h, if_false] at hm
    rcases List.mem_cons.mp hm with rfl | hm
    · simp [List.length_take_le c (x :: rest)]
    · exact ih hm

/-- key arithmetic: ceil(n / (1 + ceil(n/32))) ≤ 32 for every n. -/
theorem reduce_count_le (n : Nat) :
    rustDivCeil n (1 + rustDivCeil n 32) ≤ 32 := by
  unfold rustDivCeil
  have hgoal : n + 32 - 1 = n + 31 := by omega
  rw [hgoal]
  have h1 := Nat.div_add_mod (n + 31) 32
  have h2 : (n + 31) % 32 < 32 := Nat.mod_lt _ (by omega)
  set c := (n + 31) / 32 with hc
  have hn32 : n ≤ 32 * c := by omega
  have hpos : 0 < 1 + c := by omega
  have hlt : (n + (1 + c) - 1) / (1 + c) < 33 := by
    rw [Nat.div_lt_iff_lt_mul hpos]
    omega
  omega

theorem reduce_vectors_length_le (D : Nat) (w r : List (List ℚ))
    (h : reduce_vectors D w = some r) : r.length ≤ 32 := by
  unfold reduce_vectors at h
  split at h
  · next hle =>
    injection h with h
    subst h
    omega
  · next hgt =>
    split at h
    · injection h with h
      subst h
      simp only [List.length_map]
      rw [listChunks_length _ (by omega)]
      exact reduce_count_le w.length
    · exact absurd h (by simp)

/-- C2: for n > 32 probe vectors of the model dimension, reduce_vectors
partitions the list into contiguous chunks of size chunk_size =
1 + ceil(n/32) (a genuine partition: the chunks concatenate back to the
input and each chunk has at most chunk_size elements), replaces each chunk
by its componentwise arithmetic mean, and returns ceil(n / chunk_size)
vectors; every defined result has at most 32 vectors, whatever n is; and
n = 65 gives chunk_size 4 and exactly 17 mean vectors. -/
theorem claim_C2_reduce_vectors_chunked_mean (D : Nat) (vecs : List (List ℚ))
    (hn : 32 < vecs.length) (hD : ∀ v ∈ vecs, v.length = D) :
    reduce_vectors D vecs =
      some ((listChunks (1 + rustDivCeil vecs.length 32) vecs).map
        (meanAxis0 D)) ∧
    (listChunks (1 + rustDivCeil vecs.length 32) vecs).flatten = vecs ∧
    (∀ ch ∈ listChunks (1 + rustDivCeil vecs.length 32) vecs,
        ch.length ≤ 1 + rustDivCeil vecs.length 32) ∧
    (∀ r, reduce_vectors D vecs = some r →
        r.length = rustDivCeil vecs.length (1 + rustDivCeil vecs.length 32)) ∧
    (∀ w r : List (List ℚ), reduce_vectors D w = some r → r.length ≤ 32) ∧
    1 + rustDivCeil 65 32 = 4 ∧
    reduce_vectors 1 (List.replicate 65 [(37 : ℚ)]) =
      some (List.replicate 17 [(37 : ℚ)]) := by
  have hc : (1 + rustDivCeil vecs.length 32) ≠ 0 := by omega
  have hmain : reduce_vectors D vecs =
      some ((listChunks (1 + rustDivCeil vecs.length 32) vecs).map
        (meanAxis0 D)) := by
    unfold reduce_vectors
    rw [if_neg (by omega), if_pos]
    simp only [List.all_eq_true, decide_eq_true_eq]
    exact hD
  refine ⟨hmain, listChunks_join _ hc vecs,
    fun ch hm => listChunks_mem_short _ _ _ hm, ?_, ?_, by decide, ?_⟩
  · intro r hr
    rw [hmain] at hr
    injection hr with hr
    subst hr
    simp only [List.length_map]
    exact listChunks_length _ hc vecs
  · intro w r hw
    exact reduce_vectors_length_le D w r hw
  · norm_num [reduce_vectors, rustDivCeil, List.replicate, listChunks,
      meanAxis0, sumVecs, addVec]

/-- concrete 33-vector probe list used to witness C2. -/
def vecs33 : List (List ℚ) := List.replicate 33 [0]

/-- witness for C2: the theorem applied to 33 one-dimensional vectors. -/
theorem claim_C2_witness :
    (32 < vecs33.length ∧ ∀ v ∈ vecs33, v.length = 1) ∧
    (reduce_vectors 1 vecs33 =
      some ((listChunks (1 + rustDivCeil vecs33.length 32) vecs33).map
        (meanAxis0 1)) ∧
    (listChunks (1 + rustDivCeil vecs33.length 32) vecs33).flatten = vecs33 ∧
    (∀ ch ∈ listChunks (1 + rustDivCeil vecs33.length 32) vecs33,
        ch.length ≤ 1 + rustDivCeil vecs33.length 32) ∧
    (∀ r, reduce_vectors 1 vecs33 = some r →
        r.length = rustDivCeil vecs33.length (1 + rustDivCeil vecs33.length 32)) ∧
    (∀ w r : List (List ℚ), reduce_vectors 1 w = some r → r.length ≤ 32) ∧
    1 + rustDivCeil 65 32 = 4 ∧
    reduce_vectors 1 (List.replicate 65 [(37 : ℚ)]) =
      some (List.replicate 17 [(37 : ℚ)])) :=
  ⟨⟨by decide, by decide⟩,
    claim_C2_reduce_vectors_chunked_mean 1 vecs33 (by decide) (by decide)⟩

/-- C7: with at most 32 probe vectors, reduce_vectors returns exactly the
input list, same vectors in the same order. -/
theorem claim_C7_reduce_vectors_identity (D : Nat) (vecs : List (List ℚ))
    (h : vecs.length ≤ 32) : reduce_vectors D vecs = some vecs := by
  unfold reduce_vectors
  rw [if_pos h]

/-- witness for C7 at a concrete two-vector input. -/
theorem claim_C7_witness :
    ([[(1 : ℚ), 2], [3, 4]] : List (List ℚ)).length ≤ 32 ∧
      reduce_vectors 2 [[(1 : ℚ), 2], [3, 4]] = some [[(1 : ℚ), 2], [3, 4]] :=
  ⟨by decide, claim_C7_reduce_vectors_identity 2 [[(1 : ℚ), 2], [3, 4]] (by decide)⟩

/-- an OS string component: either valid UTF-8 or not. OsStr::to_str is
some on the former, none on the latter. -/
inductive OsStrPart
  | utf8 (s : String)
  | nonUtf8
deriving DecidableEq

def OsStrPart.toStr : OsStrPart → Option String
  | .utf8 s => some s
  | .nonUtf8 => none

/-- a discovered filesystem entry: its file name and the (optional)
extension component exactly as Path::extension returns it. -/
structure Entry where
  fileName : String
  ext : Option OsStrPart
deriving DecidableEq

/-- ImageFormat variants that the image crate recognizes by extension. -/
inductive ImgFormat
  | png | jpeg | gif | webp | tiff | tga | dds | bmp | ico | hdr | openexr
  | pnm | farbfeld | avif | qoi
deriving DecidableEq

/-- ASCII lowercasing of one character, as str::to_ascii_lowercase does. -/
def asciiLower (c : Char) : Char :=
  if 'A' ≤ c ∧ c ≤ 'Z' then Char.ofNat (c.toNat + 32) else c

def lowerStr (s : String) : String := String.mk (s.data.map asciiLower)

/-- ImageFormat::from_extension: case-insensitive lookup of the extension
in the crate's fixed table; unknown or empty extensions give none. -/
def imageFormatFromExtension (s : String) : Option ImgFormat :=
  match lowerStr s with
  | "avif" => some .avif
  | "jpg" | "jpeg" => some .jpeg
  | "png" => some .png
  | "gif" => some .gif
  | "webp" => some .webp
  | "tif" | "tiff" => some .tiff
  | "tga" => some .tga
  | "dds" => some .dds
  | "bmp" => some .bmp
  | "ico" => some .ico
  | "hdr" => some .hdr
  | "exr" => some .openexr
  | "pbm" | "pam" | "ppm" | "pgm" => some .pnm
  | "ff" => some .farbfeld
  | "qoi" => some .qoi
  | _ => none

/-- ImageFormat::from_path: read the path's extension component; fail when
it is absent or not UTF-8; otherwise look the string up. -/
def imageFormatFromPath (e : Entry) : Option ImgFormat :=
  match e.ext with
  | none => none
  | some o =>
    match o.toStr with
    | none => none
    | some s => imageFormatFromExtension s

/-- add_image::get_image_entries: keep the walked entries whose path has a
recognized image extension (the directory walk itself is external I/O). -/
def get_image_entries (walked : List Entry) : List Entry :=
  walked.filter (fun e => (imageFormatFromPath e).isSome)

/-- the content-addressed key "{hash}.{extension}" built in both
process_single_image and upload_and_index; none models the panic of
extension().unwrap() / to_str().unwrap(). -/
def mkFilename (hash : String) (e : Entry) : Option String :=
  match e.ext with
  | none => none
  | some o => (OsStrPart.toStr o).map (fun s => hash ++ "." ++ s)

/-- outcome of an S3 request: success with a value, or an SDK error, which
covers both a missing key and transport or authorization failures. -/
inductive S3Result (α : Type)
  | ok (v : α)
  | err (e : String)
deriving DecidableEq

/-- S3Client::search_file in crate image-tager: issue get_object and
return Ok(output.is_ok()) — every failure, transient or not, becomes
Ok(false); the function never returns Err. -/
def search_file (resp : S3Result Unit) : Except String Bool :=
  .ok (match resp with | .ok _ => true | .err _ => false)

/-- observable collaborator calls made for one ingest item, in program
order. -/
inductive Effect
  | probeBlob (key : String)
  | decodeImage (name : String)
  | embed (name : String)
  | uploadBlob (key : String)
  | upsertPoint (id : String) (hash : String)
deriving DecidableEq

/-- token standing for the pixel data decoded from an entry. -/
structure DecodedImage where
  src : Entry
deriving DecidableEq

/-- add_image::process_single_image: hash is the blake3 hex digest of the
file's bytes (the hashing itself is external); build the key, probe the
blob store with get_object; on Ok pass the item on with no image; on any
Err decode the image for the embedding stage. none models the unwrap panic
on a missing or non-UTF-8 extension. -/
def process_single_image (hash : String) (probe : S3Result Unit) (e : Entry) :
    Option ((Entry × Option DecodedImage × String) × List Effect) :=
  match mkFilename hash e with
  | none => none
  | some key =>
    match probe with
    | .ok _ => some ((e, none, hash), [.probeBlob key])
    | .err _ =>
      some ((e, some ⟨e⟩, hash), [.probeBlob key, .decodeImage e.fileName])

/-- add_image::generate_vector: run the model on the decoded image when one
is present; emb is the embedding semantics of WdTagger::predict. -/
def generate_vector (emb : DecodedImage → List ℚ)
    (d : Entry × Option DecodedImage × String) :
    (Entry × Option (List ℚ) × String) × List Effect :=
  match d with
  | (p, some img, h) => ((p, some (emb img), h), [.embed p.fileName])
  | (p, none, h) => ((p, none, h), [])

/-- a point stored in the vector index together with its payload. -/
structure IndexedPoint where
  id : String
  vector : List ℚ
  hash : String
  path : String
  url : String
deriving DecidableEq

/-- add_image::upload_and_index: items without a vector return at once,
touching nothing. Otherwise upload the bytes under the content key and
upsert one point whose id is freshUuid — the value drawn from
uuid::Uuid::new_v4(), a random draw modelled as an explicit argument; the
content hash plays no part in the id. -/
def upload_and_index (freshUuid baseUrl : String)
    (d : Entry × Option (List ℚ) × String) :
    Option (Option (String × IndexedPoint) × List Effect) :=
  match d with
  | (_, none, _) => some (none, [])
  | (p, some v, h) =>
    match mkFilename h p with
    | none => none
    | some key =>
      some (some (key, ⟨freshUuid, v, h, p.fileName, baseUrl ++ "/" ++ key⟩),
        [.uploadBlob key, .upsertPoint freshUuid h])

/-- state of the two durable collaborators: blob keys present in the
bucket, points present in the vector collection. -/
structure Store where
  blobs : List String
  points : List IndexedPoint
deriving DecidableEq

/-- qdrant upsert semantics: a point replaces any existing point with the
same id and is inserted otherwise. -/
def upsertInto (ps : List IndexedPoint) (p : IndexedPoint) :
    List IndexedPoint :=
  ps.filter (fun q => q.id ≠ p.id) ++ [p]

def applyOutcome (st : Store) : Option (String × IndexedPoint) → Store
  | none => st
  | some (key, p) =>
    { blobs := key :: st.blobs, points := upsertInto st.points p }

/-- a healthy blob store answers the get_object probe Ok exactly when the
key is present. -/
def probeOf (st : Store) (key : String) : S3Result Unit :=
  if key ∈ st.blobs then .ok () else .err "NoSuchKey"

/-- one item's pass through the three pipeline stages of
add_image::process_images, with the blob and index state threaded
through. -/
def ingestItem (emb : DecodedImage → List ℚ)
    (freshUuid baseUrl hash : String) (e : Entry) (st : Store) :
    Option (Store × List Effect) :=
  match mkFilename hash e with
  | none => none
  | some key =>
    match process_single_image hash (probeOf st key) e with
    | none => none
    | some (d1, fx1) =>
      match generate_vector emb d1 with
      | (d2, fx2) =>
        match upload_and_index freshUuid baseUrl d2 with
        | none => none
        | some (out, fx3) => some (applyOutcome st out, fx1 ++ fx2 ++ fx3)

theorem ingestItem_hit (emb : DecodedImage → List ℚ)
    (u b hash key : String) (e : Entry) (st : Store)
    (hkey : mkFilename hash e = some key) (hin : key ∈ st.blobs) :
    ingestItem emb u b hash e st = some (st, [.probeBlob key]) := by
  simp [ingestItem, process_single_image, generate_vector, upload_and_index,
    probeOf, applyOutcome, hkey, hin]

theorem ingestItem_miss (emb : DecodedImage → List ℚ)
    (u b hash key : String) (e : Entry) (st : Store)
    (hkey : mkFilename hash e = some key) (hnin : key ∉ st.blobs) :
    ingestItem emb u b hash e st =
      some (⟨key :: st.blobs,
          upsertInto st.points ⟨u, emb ⟨e⟩, hash, e.fileName, b ++ "/" ++ key⟩⟩,
        [.probeBlob key, .decodeImage e.fileName, .embed e.fileName,
         .uploadBlob key, .upsertPoint u hash]) := by
  simp [ingestItem, process_single_image, generate_vector, upload_and_index,
    probeOf, applyOutcome, hkey, hnin]

/-- C3: when the existence probe finds the content-addressed key in the
blob store, the item short-circuits: the pipeline neither decodes pixel
data, nor calls the embedding model, nor uploads the bytes, nor issues an
upsert; the state is untouched and the only collaborator call is the probe
itself. -/
theorem claim_C3_dedup_short_circuit (emb : DecodedImage → List ℚ)
    (u b hash key : String) (e : Entry) (st : Store)
    (hkey : mkFilename hash e = some key) (hin : key ∈ st.blobs) :
    ingestItem emb u b hash e st = some (st, [.probeBlob key]) :=
  ingestItem_hit emb u b hash key e st hkey hin

/-- concrete png entry used by the witnesses below. -/
def ePng : Entry := ⟨"a.png", some (.utf8 "png")⟩

/-- witness for C3: a pre-populated blob store short-circuits the item. -/
theorem claim_C3_witness :
    (mkFilename "h" ePng = some "h.png" ∧ "h.png" ∈ (["h.png"] : List String)) ∧
      ingestItem (fun _ => [1]) "u" "b" "h" ePng ⟨["h.png"], []⟩ =
        some (⟨["h.png"], []⟩, [.probeBlob "h.png"]) :=
  ⟨⟨by decide, by decide⟩,
    claim_C3_dedup_short_circuit (fun _ => [1]) "u" "b" "h" "h.png" ePng
      ⟨["h.png"], []⟩ (by decide) (by decide)⟩

/-- C1 is false as stated: the upserted point id is the fresh
uuid::Uuid::new_v4() draw — here two different draws over the identical
content hash "h" yield points with the two different ids, so the id is not
a function of the ContentHash. -/
theorem claim_C1_counterexample :
    upload_and_index "3f2a" "http://b" (ePng, some [1], "h") =
      some (some ("h.png", ⟨"3f2a", [1], "h", "a.png", "http://b/h.png"⟩),
        [.uploadBlob "h.png", .upsertPoint "3f2a" "h"]) ∧
    upload_and_index "9c77" "http://b" (ePng, some [1], "h") =
      some (some ("h.png", ⟨"9c77", [1], "h", "a.png", "http://b/h.png"⟩),
        [.uploadBlob "h.png", .upsertPoint "9c77" "h"]) ∧
    ("3f2a" : String) ≠ "9c77" := by
  refine ⟨by decide, by decide, by decide⟩

/-- C1 amended: the point id is the per-item random uuid draw, independent
of the ContentHash; a double ingest still leaves exactly one IndexedPoint,
but through the blob-existence short-circuit: the first run uploads the
blob and upserts one point carrying the random id, and the second run over
the same content sees the key present and performs no upsert at all. -/
theorem claim_C1_random_id_single_point (emb : DecodedImage → List ℚ)
    (id1 id2 b hash key : String) (e : Entry)
    (hkey : mkFilename hash e = some key) :
    ingestItem emb id1 b hash e ⟨[], []⟩ =
      some (⟨[key], [⟨id1, emb ⟨e⟩, hash, e.fileName, b ++ "/" ++ key⟩]⟩,
        [.probeBlob key, .decodeImage e.fileName, .embed e.fileName,
         .uploadBlob key, .upsertPoint id1 hash]) ∧
    ingestItem emb id2 b hash e
        ⟨[key], [⟨id1, emb ⟨e⟩, hash, e.fileName, b ++ "/" ++ key⟩]⟩ =
      some (⟨[key], [⟨id1, emb ⟨e⟩, hash, e.fileName, b ++ "/" ++ key⟩]⟩,
        [.probeBlob key]) ∧
    ([⟨id1, emb ⟨e⟩, hash, e.fileName, b ++ "/" ++ key⟩] :
        List IndexedPoint).length = 1 := by
  refine ⟨?_, ?_, rfl⟩
  · have h := ingestItem_miss emb id1 b hash key e ⟨[], []⟩ hkey (by simp)
    simpa [upsertInto] using h
  · exact ingestItem_hit emb id2 b hash key e _ hkey (by simp)

/-- witness for the amended C1 at a concrete entry and two concrete uuid
draws. -/
theorem claim_C1_witness :
    mkFilename "h" ePng = some "h.png" ∧
    (ingestItem (fun _ => [1]) "3f2a" "b" "h" ePng ⟨[], []⟩ =
      some (⟨["h.png"], [⟨"3f2a", [1], "h", "a.png", "b/h.png"⟩]⟩,
        [.probeBlob "h.png", .decodeImage "a.png", .embed "a.png",
         .uploadBlob "h.png", .upsertPoint "3f2a" "h"]) ∧
    ingestItem (fun _ => [1]) "9c77" "b" "h" ePng
        ⟨["h.png"], [⟨"3f2a", [1], "h", "a.png", "b/h.png"⟩]⟩ =
      some (⟨["h.png"], [⟨"3f2a", [1], "h", "a.png", "b/h.png"⟩]⟩,
        [.probeBlob "h.png"]) ∧
    ([⟨"3f2a", [1], "h", "a.png", "b/h.png"⟩] : List IndexedPoint).length = 1) :=
  ⟨by decide,
    claim_C1_random_id_single_point (fun _ => [1]) "3f2a" "9c77" "b" "h"
      "h.png" ePng (by decide)⟩

/-- C8: S3Client::search_file never surfaces an error — it returns
Ok(is_ok()), so any SDK failure becomes Ok(false) — and the inline
get_object probe of process_single_image treats any error as absence,
steering the item into the full decode path. -/
theorem claim_C8_probe_failure_means_absent (err hash key : String)
    (e : Entry) (hkey : mkFilename hash e = some key) :
    (∀ resp : S3Result Unit, ∃ b : Bool, search_file resp = .ok b) ∧
    (∀ msg : String, search_file (.err msg) = .ok false) ∧
    process_single_image hash (.err err) e =
      some ((e, some ⟨e⟩, hash), [.probeBlob key, .decodeImage e.fileName]) := by
  refine ⟨fun resp => ⟨_, rfl⟩, fun _ => rfl, ?_⟩
  simp [process_single_image, hkey]

/-- witness for C8 at a concrete timeout error. -/
theorem claim_C8_witness :
    mkFilename "h" ePng = some "h.png" ∧
    ((∀ resp : S3Result Unit, ∃ b : Bool, search_file resp = .ok b) ∧
    (∀ msg : String, search_file (.err msg) = .ok false) ∧
    process_single_image "h" (.err "timeout") ePng =
      some ((ePng, some ⟨ePng⟩, "h"),
        [.probeBlob "h.png", .decodeImage "a.png"])) :=
  ⟨by decide, claim_C8_probe_failure_means_absent "timeout" "h" "h.png" ePng (by decide)⟩

theorem imageFormatFromExtension_ne_empty (s : String) (fmt : ImgFormat)
    (h : imageFormatFromExtension s = some fmt) : s ≠ "" := by
  intro hs
  subst hs
  have hn : imageFormatFromExtension "" = none := by decide
  rw [hn] at h
  cases h

/-- C10: every entry kept by ingest discovery has an extension component
that is present, UTF-8 and a recognized image extension (hence non-empty),
so the "{hash}.{extension}" key construction succeeds — the
extension().unwrap().to_str().unwrap() chain cannot panic on a discovered
entry. -/
theorem claim_C10_discovered_entries_have_usable_extension
    (walked : List Entry) (e : Entry) (hash : String)
    (he : e ∈ get_image_entries walked) :
    ∃ s fmt, e.ext = some (.utf8 s) ∧ imageFormatFromExtension s = some fmt ∧
      s ≠ "" ∧ mkFilename hash e = some (hash ++ "." ++ s) := by
  have hsome : (imageFormatFromPath e).isSome = true :=
    (List.mem_filter.mp he).2
  match hext : e.ext with
  | none => simp [imageFormatFromPath, hext] at hsome
  | some .nonUtf8 => simp [imageFormatFromPath, hext, OsStrPart.toStr] at hsome
  | some (.utf8 s) =>
    simp only [imageFormatFromPath, hext, OsStrPart.toStr] at hsome
    match hfmt : imageFormatFromExtension s with
    | none => rw [hfmt] at hsome; cases hsome
    | some fmt =>
      exact ⟨s, fmt, rfl, hfmt, imageFormatFromExtension_ne_empty s fmt hfmt,
        by simp [mkFilename, hext, OsStrPart.toStr]⟩

/-- witness for C10: a walked list with a png, a txt and an
extension-less entry keeps only the png, whose key construction succeeds. -/
theorem claim_C10_witness :
    ePng ∈ get_image_entries [ePng, ⟨"b.txt", some (.utf8 "txt")⟩, ⟨"c", none⟩] ∧
    ∃ s fmt, ePng.ext = some (.utf8 s) ∧
      imageFormatFromExtension s = some fmt ∧ s ≠ "" ∧
      mkFilename "h" ePng = some ("h" ++ "." ++ s) :=
  ⟨by decide,
    claim_C10_discovered_entries_have_usable_extension
      [ePng, ⟨"b.txt", some (.utf8 "txt")⟩, ⟨"c", none⟩] ePng "h" (by decide)⟩

/-- state of the vector database: name and dimension of every existing
collection. -/
structure Collections where
  dims : List (String × Nat)
deriving DecidableEq

/-- add_image::ensure_image_collection_exists: when collection_exists is
false, create the collection with the model's dimension (cosine distance,
on-disk storage and scalar quantization are configuration beyond the
claims); when it already exists, return Ok at once — nowhere is its
dimension compared with the model's output size. -/
def ensure_image_collection_exists (st : Collections) (dimension : Nat)
    (collection_name : String) : Except String Collections :=
  if (st.dims.find? (fun d => d.1 == collection_name)).isSome then .ok st
  else .ok ⟨(collection_name, dimension) :: st.dims⟩

/-- C4 is false as stated: with an existing collection of dimension 5 and
a model output size of 10, bootstrap returns Ok and leaves the mismatched
collection exactly as it was — no fatal startup error occurs. -/
theorem claim_C4_counterexample :
    ensure_image_collection_exists ⟨[("images", 5)]⟩ 10 "images" =
      .ok ⟨[("images", 5)]⟩ ∧ (5 : Nat) ≠ 10 := by
  refine ⟨by rfl, by decide⟩

/-- C4 amended: bootstrap performs no dimensionality check at all: an
existing collection is accepted unchanged whatever its dimension, and only
an absent collection is created, with dimension equal to the model's
output size. -/
theorem claim_C4_no_dimension_check (st : Collections) (dim : Nat)
    (name : String) :
    ((st.dims.find? (fun d => d.1 == name)).isSome →
      ensure_image_collection_exists st dim name = .ok st) ∧
    (st.dims.find? (fun d => d.1 == name) = none →
      ensure_image_collection_exists st dim name =
        .ok ⟨(name, dim) :: st.dims⟩) := by
  constructor
  · intro h
    simp [ensure_image_collection_exists, h]
  · intro h
    simp [ensure_image_collection_exists, h]

/-- witness for the amended C4: a dimension-5 collection survives a
dimension-10 model, and an absent one is created at dimension 10. -/
theorem claim_C4_witness :
    ensure_image_collection_exists ⟨[("c", 5)]⟩ 10 "c" = .ok ⟨[("c", 5)]⟩ ∧
    ensure_image_collection_exists ⟨[]⟩ 10 "c" = .ok ⟨[("c", 10)]⟩ :=
  ⟨(claim_C4_no_dimension_check ⟨[("c", 5)]⟩ 10 "c").1 (by decide),
    (claim_C4_no_dimension_check ⟨[]⟩ 10 "c").2 (by decide)⟩

/-- ndarray::stack(Axis(0), rows) over the row-list view of the stacked
tensor: fails on an empty slice (ShapeError), is the identity otherwise. -/
def stackBatch {T : Type} (rows : List T) : Option (List T) :=
  match rows with
  | [] => none
  | _ => some rows

/-- axis_iter(Axis(0)) over the row-list view: the rows in order. -/
def axisRows {V : Type} (batch : List V) : List V := batch

/-- Model::predicts of models::wd_tagger: preprocess every image in order,
stack them into one batch, run the session once, split the output on axis
0. pre is the preprocessing semantics; g is the per-row semantics of the
onnx session, whose batch output is row i = g (input row i) — the
external runtime contract of the embedding collaborator. -/
def predicts {Img T : Type} (pre : Img → T) (g : T → List ℚ)
    (images : List Img) : Option (List (List ℚ)) :=
  match stackBatch (images.map pre) with
  | none => none
  | some batch => some (axisRows (batch.map g))

/-- search_image::process_images: decode the files in contiguous chunks of
the batch size, run predicts on each chunk in order, and concatenate the
per-chunk results in order (try_fold with Vec::extend). -/
def process_images {F Img T : Type} (decode : F → Img) (pre : Img → T)
    (g : T → List ℚ) (batch_size : Nat) (files : List F) :
    Option (List (List ℚ)) :=
  (listChunks batch_size files).foldlM
    (fun acc chunk => (predicts pre g (chunk.map decode)).map (acc ++ ·)) []

theorem predicts_eq {Img T : Type} (pre : Img → T) (g : T → List ℚ)
    (images : List Img) (h : images ≠ []) :
    predicts pre g images = some (images.map (fun i => g (pre i))) := by
  match images with
  | [] => exact absurd rfl h
  | i :: is =>
    simp [predicts, stackBatch, axisRows, List.map_map]

theorem process_images_fold {F Img T : Type} (decode : F → Img)
    (pre : Img → T) (g : T → List ℚ) (bs : Nat) (hbs : bs ≠ 0)
    (files : List F) :
    ∀ acc : List (List ℚ),
      (listChunks bs files).foldlM
        (fun acc chunk => (predicts pre g (chunk.map decode)).map (acc ++ ·))
        acc = some (acc ++ files.map (fun f => g (pre (decode f)))) := by
  induction files using listChunks.induct bs with
  | case1 xs h => exact absurd h hbs
  | case2 h =>
    intro acc
    rw [listChunks]
    simp [hbs]
  | case3 h x rest ih =>
    intro acc
    have hchunk : ((x :: rest).take bs).map decode ≠ [] := by
      simp only [ne_eq, List.map_eq_nil_iff, List.take_eq_nil_iff]
      simp [hbs]
    rw [listChunks, if_neg hbs, List.foldlM_cons,
      predicts_eq pre g _ hchunk]
    simp only [Option.map_some', Option.bind_eq_bind', Option.some_bind']
    rw [ih]
    congr 1
    rw [List.append_assoc]
    congr 1
    simp only [List.map_map, Function.comp_def]
    rw [← List.map_append, List.take_append_drop]

/-- C5: predicts returns exactly one vector per input image, vector i
being the model output for image i, for every nonempty batch; and
process_images concatenates the per-chunk outputs in order, so the whole
result is positionally aligned with the whole file list. -/
theorem claim_C5_positional_alignment {F Img T : Type} (decode : F → Img)
    (pre : Img → T) (g : T → List ℚ) (images : List Img) (files : List F)
    (bs : Nat) (hk : 1 ≤ images.length) (hbs : 1 ≤ bs) :
    predicts pre g images = some (images.map (fun i => g (pre i))) ∧
    (∀ out, predicts pre g images = some out →
      out.length = images.length ∧
      ∀ i : Nat, out.get? i = (images.get? i).map (fun im => g (pre im))) ∧
    process_images decode pre g bs files =
      some (files.map (fun f => g (pre (decode f)))) := by
  have hne : images ≠ [] := by
    intro h
    subst h
    simp at hk
  have h1 := predicts_eq pre g images hne
  refine ⟨h1, ?_, ?_⟩
  · intro out hout
    rw [h1] at hout
    injection hout with hout
    subst hout
    constructor
    · simp
    · intro i
      simp [List.get?_eq_getElem?, List.getElem?_map]
  · have := process_images_fold decode pre g bs (by omega) files []
    simpa [process_images] using this

/-- witness for C5 with three concrete rational "images" and chunk size
two. -/
theorem claim_C5_witness :
    (1 ≤ ([(1 : ℚ), 2, 3] : List ℚ).length ∧ 1 ≤ 2) ∧
    (predicts (fun x : ℚ => x + 1) (fun t : ℚ => [t])
        [(1 : ℚ), 2, 3] = some ([(1 : ℚ), 2, 3].map (fun i => [i + 1])) ∧
    (∀ out, predicts (fun x : ℚ => x + 1) (fun t : ℚ => [t])
        [(1 : ℚ), 2, 3] = some out →
      out.length = ([(1 : ℚ), 2, 3] : List ℚ).length ∧
      ∀ i : Nat, out.get? i =
        (([(1 : ℚ), 2, 3] : List ℚ).get? i).map (fun im => [im + 1])) ∧
    process_images (fun f : ℚ => f) (fun x : ℚ => x + 1) (fun t : ℚ => [t])
        2 [(1 : ℚ), 2, 3] =
      some ([(1 : ℚ), 2, 3].map (fun f => [f + 1]))) :=
  ⟨⟨by decide, by decide⟩,
    claim_C5_positional_alignment (fun f : ℚ => f) (fun x : ℚ => x + 1)
      (fun t : ℚ => [t]) [(1 : ℚ), 2, 3] [(1 : ℚ), 2, 3] 2
      (by decide) (by decide)⟩

/-- add_image::handle_result: print the error with context on the
progress bar and carry on; nothing else happens to a failed item. -/
def handle_result (r : Except String Unit) (log : List String) :
    List String :=
  match r with
  | .error e => log ++ ["Error: " ++ e]
  | .ok _ => log

/-- the tail of add_image::process_images: every per-item result is
drained through handle_result in turn; the run itself always completes
and returns the accumulated log. -/
def ingestDrain (results : List (Except String Unit)) : List String :=
  results.foldl (fun log r => handle_result r log) []

def isErrResult (r : Except String Unit) : Bool :=
  match r with
  | .error _ => true
  | .ok _ => false

/-- search_image::download_files. Each spawned download task joins as
Ok(inner download result); only a panicked task joins as Err. try_collect
aborts on the join layer alone and the collected Vec of inner results is
discarded by the final `?;`, so when no task panics the function returns
Ok(()) no matter how many downloads failed — the failures are neither
logged nor propagated. collectJoins is the try_collect over the join
layer: it stops at the first Err join (a panicked task) and otherwise
collects the inner download results. -/
def collectJoins : List (Except String (Except String Unit)) →
    Except String (List (Except String Unit))
  | [] => .ok []
  | t :: ts =>
    match t with
    | .error e => .error e
    | .ok r =>
      match collectJoins ts with
      | .error e => .error e
      | .ok rs => .ok (r :: rs)

def download_files (tasks : List (Except String (Except String Unit))) :
    Except String Unit :=
  match collectJoins tasks with
  | .error e => .error e
  | .ok _ => .ok ()

theorem ingestDrain_foldl (results : List (Except String Unit))
    (log : List String) :
    results.foldl (fun l r => handle_result r l) log =
      log ++ results.foldl (fun l r => handle_result r l) [] := by
  induction results generalizing log with
  | nil => simp
  | cons r rs ih =>
    simp only [List.foldl_cons]
    rw [ih (handle_result r log), ih (handle_result r [])]
    cases r <;> simp [handle_result]

theorem download_files_all_joined (tasks : List (Except String Unit)) :
    download_files (tasks.map .ok) = .ok () := by
  unfold download_files
  have h : collectJoins (tasks.map .ok) = .ok tasks := by
    induction tasks with
    | nil => rfl
    | cons t ts ih => simp [collectJoins, ih]
  rw [h]

theorem ingestDrain_length (results : List (Except String Unit)) :
    (ingestDrain results).length = (results.filter isErrResult).length := by
  induction results with
  | nil => rfl
  | cons r rs ih =>
    have hstep : ingestDrain (r :: rs) = handle_result r [] ++ ingestDrain rs := by
      unfold ingestDrain
      rw [List.foldl_cons, ingestDrain_foldl rs (handle_result r [])]
    rw [hstep, List.length_append, ih, List.filter_cons]
    cases r with
    | error e =>
      simp [handle_result, isErrResult]
      omega
    | ok v => simp [handle_result, isErrResult]

/-- C6 is false for the query download fan-out: a run whose only download
failed is indistinguishable from a run whose download succeeded — both
return Ok(()) and neither produces any output — so the failure is not
logged with context (nor surfaced at all). -/
theorem claim_C6_counterexample :
    download_files [.ok (.error "connection timed out"), .ok (.ok ())] =
      .ok () ∧
    download_files [.ok (.ok ()), .ok (.ok ())] = .ok () ∧
    download_files [.ok (.error "connection timed out"), .ok (.ok ())] =
      download_files [.ok (.ok ()), .ok (.ok ())] := ⟨rfl, rfl, rfl⟩

/-- C6 amended: in the ingest pipeline every per-item failure is logged
with context and the drain processes all items, never aborting — the log
grows by exactly one line per failed item; in the query download fan-out
the run also continues (Ok for every task list whose joins succeed), but a
failed download is silently discarded rather than logged. -/
theorem claim_C6_ingest_logs_query_discards
    (results : List (Except String Unit)) (msg : String)
    (tasks : List (Except String Unit)) :
    ingestDrain (results ++ [.error msg]) =
      ingestDrain results ++ ["Error: " ++ msg] ∧
    ingestDrain (results ++ [.ok ()]) = ingestDrain results ∧
    (ingestDrain results).length = (results.filter isErrResult).length ∧
    download_files (tasks.map .ok) = .ok () := by
  refine ⟨?_, ?_, ?_, download_files_all_joined tasks⟩
  · unfold ingestDrain
    rw [List.foldl_append, ingestDrain_foldl [Except.error msg]]
    rfl
  · unfold ingestDrain
    rw [List.foldl_append]
    rfl
  · exact ingestDrain_length results

/-- witness for the amended C6 at one failed ingest item and one failed
download task. -/
theorem claim_C6_witness :
    ingestDrain ([.ok ()] ++ [.error "upsert timeout"]) =
      ingestDrain [.ok ()] ++ ["Error: " ++ "upsert timeout"] ∧
    ingestDrain ([.ok ()] ++ [.ok ()]) = ingestDrain [.ok ()] ∧
    (ingestDrain [.ok ()]).length =
      (([.ok ()] : List (Except String Unit)).filter isErrResult).length ∧
    download_files ([.error "download timeout"].map .ok) = .ok () :=
  claim_C6_ingest_logs_query_discards [.ok ()] "upsert timeout"
    [.error "download timeout"]

/-- dynamic qdrant payload value: a string or some other JSON shape. -/
inductive PayloadValue
  | str (s : String)
  | other (rendered : String)
deriving DecidableEq

/-- Value::as_str: some only on strings. -/
def PayloadValue.asStr : PayloadValue → Option String
  | .str s => some s
  | .other _ => none

/-- Value::to_string: renders any payload value, string or not. -/
def PayloadValue.render : PayloadValue → String
  | .str s => s
  | .other r => r

/-- one scored point of a recommend response, with its payload map. -/
structure RecommendPoint where
  payload : List (String × PayloadValue)
deriving DecidableEq

/-- HashMap::get on the payload map. -/
def payloadGet (p : List (String × PayloadValue)) (k : String) :
    Option PayloadValue :=
  (p.find? (fun kv => kv.1 == k)).map (fun kv => kv.2)

/-- search_image::filter_and_extract_files on one result:
payload.get("url").unwrap().as_str().unwrap(), then the same for "path";
each none is a panic of one of the four unwraps. -/
def extractFile (x : RecommendPoint) : Option (String × String) :=
  match (payloadGet x.payload "url").bind PayloadValue.asStr with
  | none => none
  | some url =>
    match (payloadGet x.payload "path").bind PayloadValue.asStr with
    | none => none
    | some path => some (url, path)

def filter_and_extract_files (res : List RecommendPoint) :
    Option (List (String × String)) :=
  res.mapM extractFile

/-- the typed record built by image-tager's convert_to_point_struct. -/
structure PayloadRecord where
  path : String
  hash : String
  url : String
deriving DecidableEq

/-- image-tager::convert_to_point_struct:
payload.get("url"/"path"/"hash").unwrap() followed by to_string (total on
any value); each none is an unwrap panic on a missing key. -/
def convert_to_point_struct (x : RecommendPoint) : Option PayloadRecord :=
  match payloadGet x.payload "url", payloadGet x.payload "path",
      payloadGet x.payload "hash" with
  | some u, some p, some h => some ⟨p.render, h.render, u.render⟩
  | _, _, _ => none

/-- C9: extraction from a recommend response is total when every point's
payload has "url" and "path" with string values; a point missing either
key makes extractFile (and hence filter_and_extract_files) and
convert_to_point_struct come out none — the embedded unwrap panic — not
an error value. -/
theorem claim_C9_extraction_total_iff_keys (res : List RecommendPoint)
    (x : RecommendPoint)
    (hres : ∀ y ∈ res, (∃ u, payloadGet y.payload "url" = some (.str u)) ∧
        ∃ p, payloadGet y.payload "path" = some (.str p))
    (hx : payloadGet x.payload "url" = none ∨
        payloadGet x.payload "path" = none) :
    (filter_and_extract_files res).isSome ∧
    extractFile x = none ∧
    convert_to_point_struct x = none := by
  refine ⟨?_, ?_, ?_⟩
  · unfold filter_and_extract_files
    induction res with
    | nil => rfl
    | cons y ys ih =>
      obtain ⟨⟨u, hu⟩, p, hp⟩ := hres y (List.mem_cons_self y ys)
      have hy : extractFile y = some (u, p) := by
        unfold extractFile
        rw [hu, hp]
        rfl
      rw [List.mapM_cons, hy]
      have := ih (fun z hz => hres z (List.mem_cons_of_mem y hz))
      match hm : ys.mapM extractFile with
      | none => rw [hm] at this; cases this
      | some l => simp [hm]
  · unfold extractFile
    rcases hx with hx | hx
    · rw [hx]
      rfl
    · rw [hx]
      match payloadGet x.payload "url" with
      | none => rfl
      | some v =>
        match v with
        | .str s => rfl
        | .other r => rfl
  · unfold convert_to_point_struct
    rcases hx with hx | hx <;> rw [hx] <;>
      cases payloadGet x.payload "url" <;>
      cases payloadGet x.payload "path" <;>
      cases payloadGet x.payload "hash" <;> rfl

/-- witness for C9: a well-formed two-point response extracts, and a point
lacking "url" panics in both extractors. -/
theorem claim_C9_witness :
    ((∀ y ∈ [RecommendPoint.mk [("url", .str "u1"), ("path", .str "p1")],
        RecommendPoint.mk [("url", .str "u2"), ("path", .str "p2"), ("hash", .str "h2")]],
      (∃ u, payloadGet y.payload "url" = some (.str u)) ∧
        ∃ p, payloadGet y.payload "path" = some (.str p)) ∧
    (payloadGet (RecommendPoint.mk [("path", .str "p3")]).payload "url" = none ∨
      payloadGet (RecommendPoint.mk [("path", .str "p3")]).payload "path" = none)) ∧
    ((filter_and_extract_files
        [RecommendPoint.mk [("url", .str "u1"), ("path", .str "p1")],
         RecommendPoint.mk [("url", .str "u2"), ("path", .str "p2"), ("hash", .str "h2")]]).isSome ∧
    extractFile (RecommendPoint.mk [("path", .str "p3")]) = none ∧
    convert_to_point_struct (RecommendPoint.mk [("path", .str "p3")]) = none) :=
  ⟨⟨(by
      intro y hy
      rcases List.mem_cons.mp hy with rfl | hy
      · exact ⟨⟨"u1", rfl⟩, "p1", rfl⟩
      rcases List.mem_cons.mp hy with rfl | hy
      · exact ⟨⟨"u2", rfl⟩, "p2", rfl⟩
      · cases hy),
    Or.inl rfl⟩,
    claim_C9_extraction_total_iff_keys
      [RecommendPoint.mk [("url", .str "u1"), ("path", .str "p1")],
       RecommendPoint.mk [("url", .str "u2"), ("path", .str "p2"), ("hash", .str "h2")]]
      (RecommendPoint.mk [("path", .str "p3")])
      (by
        intro y hy
        rcases List.mem_cons.mp hy with rfl | hy
        · exact ⟨⟨"u1", rfl⟩, "p1", rfl⟩
        rcases List.mem_cons.mp hy with rfl | hy
        · exact ⟨⟨"u2", rfl⟩, "p2", rfl⟩
        · cases hy)
      (Or.inl rfl)⟩

end ImageTager
